import Mathlib

/-!
Verification development for the anyio top-level module
(file src/anyio/init module of the repository).

The connect race of connect_tcp (Happy Eyeballs) is embedded as a small-step
transition system on an explicit state.  The cooperative-concurrency model
follows the source: a task runs atomically between await points, and the
await points of try_connect are the connect call, the cancel call and the
event set calls.  Setting an event always succeeds (the backend Event.set
body contains no further await before the set happens), and a spawned task
begins executing and reaches its first await point before it can observe
cancellation.  The winner branch (storing the stream and calling cancel on
the shared scope) contains no await between the None check and the store,
so it is one atomic step; the cancel flag is set in the same step, which
over-approximates no interleaving relevant to the claims because delivery
of cancellation to other tasks is a separate nondeterministic step.

Pure helper functions of the module (run, fail_after, move_on_after,
run_process, and the socket-setup sequences of connect_unix,
create_tcp_server and create_udp_socket) are embedded as Lean functions
over explicit oracles for the backend calls.
-/

namespace Anyio

/-- An operating-system error as recorded by the connect race: an optional
errno and a message.  Mirrors a Python OSError value. -/
structure OSErr where
  errno : Option Nat
  msg : String
deriving DecidableEq

/-- The behaviour of one connection attempt, fixed in advance: socket
creation raises OSError (source line 422), the connect call raises OSError
(line 434 raising, handled at line 438), or the connect call succeeds
(line 434 returning). -/
inductive Script where
  | createFails (e : OSErr)
  | connectFails (e : OSErr)
  | connectSucceeds
deriving DecidableEq

/-- Program counter of one try_connect task, indexing the atomic blocks
between await points of the source. -/
inductive APC where
  | notSpawned
  | ready
  | failedCreate
  | awaitingConnect
  | inFinally
  | finished
deriving DecidableEq

/-- Lifecycle of the raw socket of one attempt. -/
inductive SockState where
  | noSock
  | sockOpen
  | sockClosed
deriving DecidableEq

/-- The per-attempt state of the race: the fixed script, the program
counter, whether the done event of the attempt has been set, and the
state of the raw socket the attempt created. -/
structure Attempt where
  script : Script
  pc : APC
  eventSet : Bool
  sock : SockState
deriving DecidableEq

/-- The shared state of one connect_tcp call: the spawned attempts, the
nonlocal stream slot (holding the winning attempt index), the shared
oserrors list, the cancel-called flag of the shared task-group scope, and
the launcher loop state (waiting inside move_on_after, and how many
attempts it has spawned so far). -/
structure RaceState where
  attempts : List Attempt
  stream : Option Nat
  oserrors : List OSErr
  cancelled : Bool
  waiting : Bool
  spawned : Nat
deriving DecidableEq

/-- A freshly created, not yet spawned attempt task for one candidate. -/
def initAttempt (sc : Script) : Attempt :=
  ⟨sc, APC.notSpawned, false, SockState.noSock⟩

/-- The state of the race right after entering the task group at source
line 456, before the launcher loop runs. -/
def initState (scr : List Script) : RaceState :=
  ⟨scr.map initAttempt, none, [], false, false, 0⟩

/-- One atomic step of the connect race.  Launcher steps model the loop at
source lines 457-461; attempt steps model the atomic blocks of try_connect
at lines 419-445. -/
inductive Step : RaceState → RaceState → Prop where
  /-- The launcher spawns the next candidate attempt (line 459) and enters
  the move_on_after wait (line 460).  Once the shared scope is cancelled
  the launcher is cancelled at its next await and spawns nothing more. -/
  | spawnNext (s : RaceState) (a : Attempt) :
      s.waiting = false → s.cancelled = false → s.attempts[s.spawned]? = some a →
      a.pc = APC.notSpawned →
      Step s { s with
        attempts := s.attempts.set s.spawned ({ a with pc := APC.ready }),
        spawned := s.spawned + 1, waiting := true }
  /-- The stagger delay of the move_on_after block expires (line 460). -/
  | waitTimeout (s : RaceState) :
      s.waiting = true → Step s { s with waiting := false }
  /-- The event of the attempt the launcher is waiting on is set, so
  event.wait returns and the launcher leaves the wait early (line 461). -/
  | waitEvent (s : RaceState) (a : Attempt) :
      s.waiting = true → s.attempts[s.spawned - 1]? = some a → a.eventSet = true →
      Step s { s with waiting := false }
  /-- Socket creation raises OSError: the error is recorded (line 424) and
  the task proceeds to the event set at line 425. -/
  | createFail (s : RaceState) (i : Nat) (a : Attempt) (e : OSErr) :
      s.attempts[i]? = some a → a.pc = APC.ready → a.script = Script.createFails e →
      Step s { s with
        attempts := s.attempts.set i ({ a with pc := APC.failedCreate }),
        oserrors := s.oserrors ++ [e] }
  /-- The event set at line 425 completes and the task returns. -/
  | createFailEvent (s : RaceState) (i : Nat) (a : Attempt) :
      s.attempts[i]? = some a → a.pc = APC.failedCreate →
      Step s { s with
        attempts := s.attempts.set i ({ a with pc := APC.finished, eventSet := true }) }
  /-- Socket creation succeeds; the socket is configured (lines 429-432)
  and the task suspends in the backend connect call at line 434. -/
  | enterConnect (s : RaceState) (i : Nat) (a : Attempt) :
      s.attempts[i]? = some a → a.pc = APC.ready →
      (∀ e, a.script ≠ Script.createFails e) →
      Step s { s with
        attempts := s.attempts.set i ({ a with pc := APC.awaitingConnect, sock := SockState.sockOpen }) }
  /-- The connect call raises OSError: the error is recorded and the socket
  closed (lines 438-440), then the task proceeds to the finally block. -/
  | connectFail (s : RaceState) (i : Nat) (a : Attempt) (e : OSErr) :
      s.attempts[i]? = some a → a.pc = APC.awaitingConnect → a.script = Script.connectFails e →
      Step s { s with
        attempts := s.attempts.set i ({ a with pc := APC.inFinally, sock := SockState.sockClosed }),
        oserrors := s.oserrors ++ [e] }
  /-- The connect call returns while the stream slot is empty: this attempt
  stores its result in the slot and cancels the shared scope (lines
  435-437); the check and the store are one atomic block. -/
  | connectSuccessWin (s : RaceState) (i : Nat) (a : Attempt) :
      s.attempts[i]? = some a → a.pc = APC.awaitingConnect → a.script = Script.connectSucceeds →
      s.stream = none →
      Step s { s with
        attempts := s.attempts.set i ({ a with pc := APC.inFinally }),
        stream := some i,
        cancelled := true }
  /-- The connect call returns but the stream slot is already claimed: the
  source does nothing with the freshly connected result (the None check at
  line 435 fails) and falls through to the finally block, leaving the
  socket of this attempt open. -/
  | connectSuccessLose (s : RaceState) (i w : Nat) (a : Attempt) :
      s.attempts[i]? = some a → a.pc = APC.awaitingConnect → a.script = Script.connectSucceeds →
      s.stream = some w →
      Step s { s with attempts := s.attempts.set i ({ a with pc := APC.inFinally }) }
  /-- Cancellation of the shared scope is delivered to a task suspended in
  the connect call: the BaseException handler closes the socket and
  re-raises (lines 441-443), then the finally block runs. -/
  | cancelDelivered (s : RaceState) (i : Nat) (a : Attempt) :
      s.attempts[i]? = some a → a.pc = APC.awaitingConnect → s.cancelled = true →
      Step s { s with
        attempts := s.attempts.set i ({ a with pc := APC.inFinally, sock := SockState.sockClosed }) }
  /-- The finally block at lines 444-445 sets the done event of the attempt
  and the task finishes. -/
  | finallySet (s : RaceState) (i : Nat) (a : Attempt) :
      s.attempts[i]? = some a → a.pc = APC.inFinally →
      Step s { s with
        attempts := s.attempts.set i ({ a with pc := APC.finished, eventSet := true }) }

/-- A race state reachable from the initial state of the given scripts by
some interleaving of launcher and attempt steps. -/
def Reachable (scr : List Script) (s : RaceState) : Prop :=
  Relation.ReflTransGen Step (initState scr) s

/-- The cause attached to the final OSError of a failed race: the single
recorded error when exactly one was recorded, otherwise an ExceptionGroup
of all recorded errors (source line 464). -/
inductive Cause where
  | single (e : OSErr)
  | group (es : List OSErr)
deriving DecidableEq

/-- An exception as raised to the caller: the exception value itself and
the optional cause attached by a raise-from. -/
structure RaisedExn where
  exn : OSErr
  cause : Option Cause
deriving DecidableEq

/-- The outcome of a connect_tcp call.  The noCandidates constructor is
modelled from the spec: the spec postulates a distinct NoCandidates
condition for an empty candidate list; the source has no such value and
this embedding proves it never produces one. -/
inductive ConnectOutcome where
  | stream (i : Nat)
  | raised (r : RaisedExn)
  | noCandidates
deriving DecidableEq

/-- The OSError constructed at source line 465. -/
def allConnFailedErr : OSErr := ⟨none, "All connection attempts failed"⟩

/-- Line 464: the single recorded error if exactly one was recorded, else
an ExceptionGroup of the whole list. -/
def causeOf : List OSErr → Cause
  | [e] => Cause.single e
  | es => Cause.group es

/-- Lines 463-467: if no attempt stored a stream, raise the OSError of
line 465 with the cause of line 464 attached; otherwise return the stored
stream. -/
def finalOutcome (s : RaceState) : ConnectOutcome :=
  match s.stream with
  | some i => ConnectOutcome.stream i
  | none => ConnectOutcome.raised ⟨allConnFailedErr, some (causeOf s.oserrors)⟩

/-- The default stagger delay of connect_tcp (source line 396), in
seconds. -/
def happy_eyeballs_delay_default : ℚ := 0.25

/-- Address family of one resolved candidate. -/
inductive AddrFamily where
  | inet
  | inet6
deriving DecidableEq

/-- One resolved candidate address as returned by address resolution. -/
structure AddrInfo where
  family : AddrFamily
  addr : Nat
deriving DecidableEq

/-- Source lines 457-459: connect_tcp iterates enumerate(target_addrs)
directly, so the order attempts are spawned in is exactly the order the
resolved list was returned in; no reordering happens anywhere between the
getaddrinfo call at line 453 and the loop. -/
def attemptOrder (target_addrs : List AddrInfo) : List AddrInfo := target_addrs

/-- Is this candidate an IPv6 candidate. -/
def isV6Cand (ai : AddrInfo) : Bool :=
  match ai.family with
  | AddrFamily.inet6 => true
  | AddrFamily.inet => false

/-- Modelled from the spec: "Sort candidates so that every IPv6 candidate
precedes every IPv4 candidate, preserving relative order otherwise."  This
is the stable family sort the spec prescribes, for comparison with the
order the source actually uses. -/
def sortFamiliesSpec (l : List AddrInfo) : List AddrInfo :=
  l.filter isV6Cand ++ l.filter (fun ai => ! isV6Cand ai)

/-- One operation of the socket-setup sequence of connect_unix,
create_tcp_server or create_udp_socket, each of which may raise. -/
inductive SetupStep where
  | setblocking
  | optNodelay
  | optV6only
  | optReuse
  | sockBind
  | sockListen
  | sockConnect
  | backendCall
deriving DecidableEq

/-- Result of running a setup sequence: either every operation succeeded,
or the first raising operation aborted it, with a flag telling whether the
raw socket was closed on the way out (true exactly when the raise happened
inside the try block whose BaseException handler closes the socket). -/
inductive SetupResult where
  | ok
  | failed (st : SetupStep) (closed : Bool)
deriving DecidableEq

/-- Run a setup sequence, given for each operation whether it is guarded
by the close-on-BaseException try block, against an oracle saying which
operations raise.  The first raising operation aborts the sequence. -/
def runSetup : List (SetupStep × Bool) → (SetupStep → Bool) → SetupResult
  | [], _ => SetupResult.ok
  | (st, grd) :: rest, fails =>
      if fails st then SetupResult.failed st grd else runSetup rest fails

/-- Setup sequence of connect_unix (source lines 480-486): setblocking
runs before the try block; only the backend connect call is guarded. -/
def connect_unix_steps : List (SetupStep × Bool) :=
  [(SetupStep.setblocking, false), (SetupStep.backendCall, true)]

/-- Setup sequence of create_tcp_server (source lines 510-529):
setblocking, the TCP_NODELAY option and (for an IPv6 socket) the
IPV6_V6ONLY option run before the try block; the reuse-address option,
bind, listen and the backend listener call are guarded by it. -/
def create_tcp_server_steps (isV6 : Bool) : List (SetupStep × Bool) :=
  [(SetupStep.setblocking, false), (SetupStep.optNodelay, false)] ++
    (if isV6 then [(SetupStep.optV6only, false)] else []) ++
    [(SetupStep.optReuse, true), (SetupStep.sockBind, true),
      (SetupStep.sockListen, true), (SetupStep.backendCall, true)]

/-- Setup sequence of create_udp_socket (source lines 589-601):
setblocking runs before the try block; the conditional bind, the
conditional connect, and the backend call are guarded by it. -/
def create_udp_socket_steps (doBind doConnect : Bool) : List (SetupStep × Bool) :=
  [(SetupStep.setblocking, false)] ++
    (if doBind then [(SetupStep.sockBind, true)] else []) ++
    (if doConnect then [(SetupStep.sockConnect, true)] else []) ++
    [(SetupStep.backendCall, true)]

/-- Failure oracle making exactly the TCP_NODELAY option call raise. -/
def failNodelay : SetupStep → Bool
  | SetupStep.optNodelay => true
  | _ => false

/-- Failure oracle making exactly the reuse-address option call raise. -/
def failReuse : SetupStep → Bool
  | SetupStep.optReuse => true
  | _ => false

/-- What the run function returns to its caller: the RuntimeError of
source line 62, the LookupError of line 67, or whatever the backend run
call produces. -/
inductive RunOutcome (E A : Type) where
  | runtimeError (libname : String)
  | lookupError (backend : String)
  | backendResult (r : Except E A)

/-- The run function (source lines 40-79) over explicit oracles: sniffed
is what sniffio reports for the calling thread (some name when an event
loop is already running), importable says which backend modules import
successfully, cvar is the sniffio context-variable value on entry, and
backendRun is the outcome of the backend run call.  Returns the outcome
paired with the context-variable value after the try-finally completed. -/
def run {E A : Type} (sniffed : Option String) (importable : String → Bool)
    (cvar : Option String) (backend : String) (backendRun : Except E A) :
    RunOutcome E A × Option String :=
  match sniffed with
  | some name => (RunOutcome.runtimeError name, cvar)
  | none =>
      if importable backend then
        let token : Option (Option String) := if cvar = none then some cvar else none
        let cvarDuring : Option String := if cvar = none then some backend else cvar
        let cvarFinal : Option String :=
          match token with
          | some old => old
          | none => cvarDuring
        (RunOutcome.backendResult backendRun, cvarFinal)
      else
        (RunOutcome.lookupError backend, cvar)

/-- The async context manager returned by fail_after or move_on_after: a
plain backend cancel scope, or one of the two deadline-carrying backend
combinators. -/
inductive TimeoutCM where
  | plainScope (shield : Bool)
  | failAfterScope (delay : ℚ) (shield : Bool)
  | moveOnAfterScope (delay : ℚ) (shield : Bool)
deriving DecidableEq

/-- Source lines 139-154: with delay None, return a plain CancelScope with
the given shield flag; otherwise dispatch to the backend fail_after. -/
def fail_after (delay : Option ℚ) (shield : Bool) : TimeoutCM :=
  match delay with
  | none => TimeoutCM.plainScope shield
  | some d => TimeoutCM.failAfterScope d shield

/-- Source lines 157-171: with delay None, return a plain CancelScope with
the given shield flag; otherwise dispatch to the backend move_on_after. -/
def move_on_after (delay : Option ℚ) (shield : Bool) : TimeoutCM :=
  match delay with
  | none => TimeoutCM.plainScope shield
  | some d => TimeoutCM.moveOnAfterScope d shield

/-- Modelled from the spec: the backend CancelScope and combinators are
not under src.  A plain cancel scope carries no deadline, while both
deadline combinators carry one (spec section 4.1: timeouts are implemented
purely via an implicit deadline scope). -/
def deadlineOf : TimeoutCM → Option ℚ
  | TimeoutCM.plainScope _ => none
  | TimeoutCM.failAfterScope d _ => some d
  | TimeoutCM.moveOnAfterScope d _ => some d

/-- Modelled from the spec: only the fail_after combinator converts a
deadline-triggered cancellation into a TimeoutError raised to the caller
(spec section 4.1 on fail_after versus move_on_after). -/
def raisesTimeout : TimeoutCM → Bool
  | TimeoutCM.failAfterScope _ _ => true
  | _ => false

/-- The shield flag carried by the returned context manager. -/
def shieldOf : TimeoutCM → Bool
  | TimeoutCM.plainScope sh => sh
  | TimeoutCM.failAfterScope _ sh => sh
  | TimeoutCM.moveOnAfterScope _ sh => sh

/-- The CompletedProcess value run_process returns (source line 344). -/
structure CompletedProc where
  cmd : String
  returncode : Int
  stdout : Option String
  stderr : Option String
deriving DecidableEq

/-- What run_process delivers to its caller: the exception that escaped
the streaming block re-raised after the kill (lines 336-338), the
CalledProcessError of line 342, or the CompletedProcess of line 344. -/
inductive RunProcessResult (E : Type) where
  | escaped (e : E)
  | calledProcessError (returncode : Int) (cmd : String) (stdout stderr : Option String)
  | completed (c : CompletedProc)

/-- The tail of run_process (source lines 325-344) over explicit oracles:
blockOut is the exception, if any, escaping the task-group block that
streams and waits (including a cancellation), returncode is the process
return code after a clean wait, and stdout and stderr hold the drained
stream contents.  The Bool of the result records whether process.kill was
called. -/
def run_process {E : Type} (cmd : String) (check : Bool) (blockOut : Option E)
    (returncode : Int) (stdout stderr : Option String) : RunProcessResult E × Bool :=
  match blockOut with
  | some e => (RunProcessResult.escaped e, true)
  | none =>
      if check = true ∧ returncode ≠ 0 then
        (RunProcessResult.calledProcessError returncode cmd stdout stderr, false)
      else
        (RunProcessResult.completed ⟨cmd, returncode, stdout, stderr⟩, false)

/-- A refused-connection OSError, as raised by a connect call against a
closed port. -/
def refusedErr : OSErr := ⟨some 111, "Connection refused"⟩

/-- Script list of a race with a single candidate whose connect call is
refused. -/
def scrRefused : List Script := [Script.connectFails refusedErr]

/-- The single attempt of the refused race after it has concluded. -/
def attRefusedDone : Attempt :=
  ⟨Script.connectFails refusedErr, APC.finished, true, SockState.sockClosed⟩

/-- Intermediate states of the refused race: after the spawn, after
entering the connect call, after the connect call raised, after the
finally block set the event, and after the launcher left its wait. -/
def sRefused1 : RaceState :=
  ⟨[⟨Script.connectFails refusedErr, APC.ready, false, SockState.noSock⟩],
    none, [], false, true, 1⟩

def sRefused2 : RaceState :=
  ⟨[⟨Script.connectFails refusedErr, APC.awaitingConnect, false, SockState.sockOpen⟩],
    none, [], false, true, 1⟩

def sRefused3 : RaceState :=
  ⟨[⟨Script.connectFails refusedErr, APC.inFinally, false, SockState.sockClosed⟩],
    none, [refusedErr], false, true, 1⟩

def sRefused : RaceState :=
  ⟨[attRefusedDone], none, [refusedErr], false, true, 1⟩

def sRefusedEnd : RaceState :=
  ⟨[attRefusedDone], none, [refusedErr], false, false, 1⟩

/-- Script list of a race with two candidates whose connect calls both
succeed. -/
def scrCC : List Script := [Script.connectSucceeds, Script.connectSucceeds]

/-- Intermediate states of the double-success race, in launcher order:
attempt 0 spawned, the first stagger delay expired, attempt 1 spawned, the
second stagger delay expired, then both attempts entered their connect
calls, the stream slot still empty. -/
def sCC1 : RaceState :=
  ⟨[⟨Script.connectSucceeds, APC.ready, false, SockState.noSock⟩,
    ⟨Script.connectSucceeds, APC.notSpawned, false, SockState.noSock⟩],
    none, [], false, true, 1⟩

def sCC2 : RaceState :=
  ⟨[⟨Script.connectSucceeds, APC.ready, false, SockState.noSock⟩,
    ⟨Script.connectSucceeds, APC.notSpawned, false, SockState.noSock⟩],
    none, [], false, false, 1⟩

def sCC3 : RaceState :=
  ⟨[⟨Script.connectSucceeds, APC.ready, false, SockState.noSock⟩,
    ⟨Script.connectSucceeds, APC.ready, false, SockState.noSock⟩],
    none, [], false, true, 2⟩

def sCC4 : RaceState :=
  ⟨[⟨Script.connectSucceeds, APC.ready, false, SockState.noSock⟩,
    ⟨Script.connectSucceeds, APC.ready, false, SockState.noSock⟩],
    none, [], false, false, 2⟩

def sCC5 : RaceState :=
  ⟨[⟨Script.connectSucceeds, APC.awaitingConnect, false, SockState.sockOpen⟩,
    ⟨Script.connectSucceeds, APC.ready, false, SockState.noSock⟩],
    none, [], false, false, 2⟩

def sCC6 : RaceState :=
  ⟨[⟨Script.connectSucceeds, APC.awaitingConnect, false, SockState.sockOpen⟩,
    ⟨Script.connectSucceeds, APC.awaitingConnect, false, SockState.sockOpen⟩],
    none, [], false, false, 2⟩

/-- The double-success race right after attempt 0 won: it stored itself in
the stream slot and cancelled the shared scope; attempt 1 is still
suspended in its own connect call. -/
def sWin : RaceState :=
  ⟨[⟨Script.connectSucceeds, APC.inFinally, false, SockState.sockOpen⟩,
    ⟨Script.connectSucceeds, APC.awaitingConnect, false, SockState.sockOpen⟩],
    some 0, [], true, false, 2⟩

def sWin2 : RaceState :=
  ⟨[⟨Script.connectSucceeds, APC.inFinally, false, SockState.sockOpen⟩,
    ⟨Script.connectSucceeds, APC.inFinally, false, SockState.sockOpen⟩],
    some 0, [], true, false, 2⟩

def sWin3 : RaceState :=
  ⟨[⟨Script.connectSucceeds, APC.finished, true, SockState.sockOpen⟩,
    ⟨Script.connectSucceeds, APC.inFinally, false, SockState.sockOpen⟩],
    some 0, [], true, false, 2⟩

/-- The terminal state of the double-success race in the interleaving
where the connect call of attempt 1 completed before cancellation was
delivered to it: both attempts finished, attempt 0 is the stored winner,
and the socket of attempt 1 was never closed. -/
def sLeak : RaceState :=
  ⟨[⟨Script.connectSucceeds, APC.finished, true, SockState.sockOpen⟩,
    ⟨Script.connectSucceeds, APC.finished, true, SockState.sockOpen⟩],
    some 0, [], true, false, 2⟩

/-- Invariant of the race maintained by every step: attempts are spawned
as a prefix, in candidate order (an attempt is past notSpawned exactly
when its index is below the spawn counter), and a finished attempt has
set its done event. -/
def RaceInv (atts : List Attempt) (spd : Nat) : Prop :=
  (∀ (i : Nat) (a : Attempt), atts[i]? = some a → (a.pc = APC.notSpawned ↔ spd ≤ i)) ∧
  (∀ (i : Nat) (a : Attempt), atts[i]? = some a → a.pc = APC.finished → a.eventSet = true)

/-!  Helper lemmas, followed by one theorem (plus witness or
counterexample) per claim. -/

theorem getElem?_set_cases {α : Type} {l : List α} {i j : Nat} {v b : α}
    (h : (l.set i v)[j]? = some b) :
    (i = j ∧ b = v) ∨ (i ≠ j ∧ l[j]? = some b) := by
  induction l generalizing i j with
  | nil => simp at h
  | cons x xs ih =>
    cases i with
    | zero =>
      cases j with
      | zero =>
        simp at h
        exact Or.inl ⟨rfl, h.symm⟩
      | succ j =>
        simp at h
        exact Or.inr ⟨Ne.symm (Nat.succ_ne_zero j), by simpa using h⟩
    | succ i =>
      cases j with
      | zero =>
        simp at h
        exact Or.inr ⟨Nat.succ_ne_zero i, by simp [h]⟩
      | succ j =>
        simp only [List.set_cons_succ, List.getElem?_cons_succ] at h
        rcases ih h with ⟨rfl, rfl⟩ | ⟨hne, hj⟩
        · exact Or.inl ⟨rfl, rfl⟩
        · exact Or.inr ⟨fun hc => hne (Nat.succ_injective hc), by simpa using hj⟩

theorem stream_mono_step {s t : RaceState} (hst : Step s t) {w : Nat}
    (hw : s.stream = some w) : t.stream = some w := by
  cases hst <;> simp_all

theorem stream_mono {s t : RaceState} (h : Relation.ReflTransGen Step s t) {w : Nat}
    (hw : s.stream = some w) : t.stream = some w := by
  induction h with
  | refl => exact hw
  | tail h1 h2 ih => exact stream_mono_step h2 ih

theorem raceInv_set {atts : List Attempt} {spd i : Nat} {a b : Attempt}
    (hma : atts[i]? = some a) (hInv : RaceInv atts spd)
    (hold : a.pc ≠ APC.notSpawned) (hnew : b.pc ≠ APC.notSpawned)
    (hfin : b.pc = APC.finished → b.eventSet = true) :
    RaceInv (atts.set i b) spd := by
  obtain ⟨h1, h2⟩ := hInv
  constructor
  · intro j c hc
    rcases getElem?_set_cases hc with ⟨rfl, rfl⟩ | ⟨hne, hj⟩
    · constructor
      · intro hpc
        exact absurd hpc hnew
      · intro hle
        exact absurd ((h1 i a hma).mpr hle) hold
    · exact h1 j c hj
  · intro j c hc hcf
    rcases getElem?_set_cases hc with ⟨rfl, rfl⟩ | ⟨hne, hj⟩
    · exact hfin hcf
    · exact h2 j c hj hcf

theorem raceInv_step {s t : RaceState} (hst : Step s t)
    (h : RaceInv s.attempts s.spawned) : RaceInv t.attempts t.spawned := by
  cases hst with
  | spawnNext a hw hc hma hpc =>
    show RaceInv (s.attempts.set s.spawned ({ a with pc := APC.ready })) (s.spawned + 1)
    obtain ⟨h1, h2⟩ := h
    constructor
    · intro j c hc2
      rcases getElem?_set_cases hc2 with ⟨heq, rfl⟩ | ⟨hne, hj⟩
      · subst heq
        constructor
        · intro hpc2
          simp at hpc2
        · intro hle
          exact absurd hle (by omega)
      · have hiff := h1 j c hj
        constructor
        · intro hpc2
          have hle := hiff.mp hpc2
          omega
        · intro hle
          exact hiff.mpr (by omega)
    · intro j c hc2 hcf
      rcases getElem?_set_cases hc2 with ⟨heq, rfl⟩ | ⟨hne, hj⟩
      · simp at hcf
      · exact h2 j c hj hcf
  | waitTimeout hw => exact h
  | waitEvent a hw hma hev => exact h
  | createFail i a e hma hpc hsc =>
    exact raceInv_set hma h (by simp [hpc]) (by simp) (by simp)
  | createFailEvent i a hma hpc =>
    exact raceInv_set hma h (by simp [hpc]) (by simp) (by simp)
  | enterConnect i a hma hpc hns =>
    exact raceInv_set hma h (by simp [hpc]) (by simp) (by simp)
  | connectFail i a e hma hpc hsc =>
    exact raceInv_set hma h (by simp [hpc]) (by simp) (by simp)
  | connectSuccessWin i a hma hpc hsc hnone =>
    exact raceInv_set hma h (by simp [hpc]) (by simp) (by simp)
  | connectSuccessLose i w a hma hpc hsc hsome =>
    exact raceInv_set hma h (by simp [hpc]) (by simp) (by simp)
  | cancelDelivered i a hma hpc hcan =>
    exact raceInv_set hma h (by simp [hpc]) (by simp) (by simp)
  | finallySet i a hma hpc =>
    exact raceInv_set hma h (by simp [hpc]) (by simp) (by simp)

theorem raceInv_reachable {scr : List Script} {s : RaceState} (h : Reachable scr s) :
    RaceInv s.attempts s.spawned := by
  induction h with
  | refl =>
    constructor
    · intro i a ha
      simp only [initState, List.getElem?_map] at ha
      cases hsc : scr[i]? with
      | none => rw [hsc] at ha; cases ha
      | some sc =>
        rw [hsc] at ha
        simp only [Option.map_some'] at ha
        cases ha
        simp [initAttempt, initState]
    · intro i a ha hcf
      simp only [initState, List.getElem?_map] at ha
      cases hsc : scr[i]? with
      | none => rw [hsc] at ha; cases ha
      | some sc =>
        rw [hsc] at ha
        simp only [Option.map_some'] at ha
        cases ha
        simp [initAttempt] at hcf
  | tail h1 h2 ih => exact raceInv_step h2 ih

theorem reachable_nil_eq {s : RaceState} (h : Reachable [] s) : s = initState [] := by
  induction h with
  | refl => rfl
  | tail h1 h2 ih =>
    subst ih
    cases h2 with
    | spawnNext a hw hc hma hpc => simp [initState] at hma
    | waitTimeout hw => simp [initState] at hw
    | waitEvent a hw hma hev => simp [initState] at hw
    | createFail i a e hma hpc hsc => simp [initState] at hma
    | createFailEvent i a hma hpc => simp [initState] at hma
    | enterConnect i a hma hpc hns => simp [initState] at hma
    | connectFail i a e hma hpc hsc => simp [initState] at hma
    | connectSuccessWin i a hma hpc hsc hnone => simp [initState] at hma
    | connectSuccessLose i w a hma hpc hsc hsome => simp [initState] at hma
    | cancelDelivered i a hma hpc hcan => simp [initState] at hma
    | finallySet i a hma hpc => simp [initState] at hma

theorem reach_sRefused : Reachable scrRefused sRefused := by
  have h0 : Step (initState scrRefused) sRefused1 :=
    Step.spawnNext (initState scrRefused)
      (initAttempt (Script.connectFails refusedErr)) rfl rfl rfl rfl
  have h1 : Step sRefused1 sRefused2 :=
    Step.enterConnect sRefused1 0
      ⟨Script.connectFails refusedErr, APC.ready, false, SockState.noSock⟩
      rfl rfl (by intro e he; cases he)
  have h2 : Step sRefused2 sRefused3 :=
    Step.connectFail sRefused2 0
      ⟨Script.connectFails refusedErr, APC.awaitingConnect, false, SockState.sockOpen⟩
      refusedErr rfl rfl rfl
  have h3 : Step sRefused3 sRefused :=
    Step.finallySet sRefused3 0
      ⟨Script.connectFails refusedErr, APC.inFinally, false, SockState.sockClosed⟩
      rfl rfl
  exact Relation.ReflTransGen.head h0 (Relation.ReflTransGen.head h1
    (Relation.ReflTransGen.head h2 (Relation.ReflTransGen.single h3)))

theorem reach_sRefusedEnd : Reachable scrRefused sRefusedEnd :=
  Relation.ReflTransGen.tail reach_sRefused
    (Step.waitEvent sRefused attRefusedDone rfl rfl rfl)

theorem reach_sWin : Reachable scrCC sWin := by
  have h0 : Step (initState scrCC) sCC1 :=
    Step.spawnNext (initState scrCC) (initAttempt Script.connectSucceeds) rfl rfl rfl rfl
  have h1 : Step sCC1 sCC2 := Step.waitTimeout sCC1 rfl
  have h2 : Step sCC2 sCC3 :=
    Step.spawnNext sCC2
      ⟨Script.connectSucceeds, APC.notSpawned, false, SockState.noSock⟩ rfl rfl rfl rfl
  have h3 : Step sCC3 sCC4 := Step.waitTimeout sCC3 rfl
  have h4 : Step sCC4 sCC5 :=
    Step.enterConnect sCC4 0
      ⟨Script.connectSucceeds, APC.ready, false, SockState.noSock⟩
      rfl rfl (by intro e he; cases he)
  have h5 : Step sCC5 sCC6 :=
    Step.enterConnect sCC5 1
      ⟨Script.connectSucceeds, APC.ready, false, SockState.noSock⟩
      rfl rfl (by intro e he; cases he)
  have h6 : Step sCC6 sWin :=
    Step.connectSuccessWin sCC6 0
      ⟨Script.connectSucceeds, APC.awaitingConnect, false, SockState.sockOpen⟩
      rfl rfl rfl rfl
  exact Relation.ReflTransGen.head h0 (Relation.ReflTransGen.head h1
    (Relation.ReflTransGen.head h2 (Relation.ReflTransGen.head h3
      (Relation.ReflTransGen.head h4 (Relation.ReflTransGen.head h5
        (Relation.ReflTransGen.single h6))))))

theorem trace_sWin_sLeak : Relation.ReflTransGen Step sWin sLeak := by
  have h7 : Step sWin sWin2 :=
    Step.connectSuccessLose sWin 1 0
      ⟨Script.connectSucceeds, APC.awaitingConnect, false, SockState.sockOpen⟩
      rfl rfl rfl rfl
  have h8 : Step sWin2 sWin3 :=
    Step.finallySet sWin2 0
      ⟨Script.connectSucceeds, APC.inFinally, false, SockState.sockOpen⟩ rfl rfl
  have h9 : Step sWin3 sLeak :=
    Step.finallySet sWin3 1
      ⟨Script.connectSucceeds, APC.inFinally, false, SockState.sockOpen⟩ rfl rfl
  exact Relation.ReflTransGen.head h7 (Relation.ReflTransGen.head h8
    (Relation.ReflTransGen.single h9))

theorem reach_sLeak : Reachable scrCC sLeak :=
  Relation.ReflTransGen.trans reach_sWin trace_sWin_sLeak

/-- Claim C1: in the parallel-connect race, at most one attempt populates
the winner slot.  Whenever a step fills the empty slot, that step is the
atomic success block of an attempt suspended in its connect call, and it
simultaneously cancels the shared task-group scope; and once the slot
holds a winner, no later step of any interleaving ever changes it. -/
theorem connect_tcp_winner_unique (s t u : RaceState) :
    (Relation.ReflTransGen Step s t → ∀ w, s.stream = some w → t.stream = some w) ∧
    (Step s u → s.stream = none → u.stream ≠ none →
      u.cancelled = true ∧ ∃ (i : Nat) (a : Attempt), s.attempts[i]? = some a ∧
        a.pc = APC.awaitingConnect ∧ a.script = Script.connectSucceeds ∧
        u.stream = some i) := by
  constructor
  · intro h w hw
    exact stream_mono h hw
  · intro hst hnone hne
    cases hst with
    | spawnNext a hw hc hma hpc => exact absurd hnone hne
    | waitTimeout hw => exact absurd hnone hne
    | waitEvent a hw hma hev => exact absurd hnone hne
    | createFail i a e hma hpc hsc => exact absurd hnone hne
    | createFailEvent i a hma hpc => exact absurd hnone hne
    | enterConnect i a hma hpc hns => exact absurd hnone hne
    | connectFail i a e hma hpc hsc => exact absurd hnone hne
    | connectSuccessWin i a hma hpc hsc hn => exact ⟨rfl, i, a, hma, hpc, hsc, rfl⟩
    | connectSuccessLose i w a hma hpc hsc hsome => exact absurd hnone hne
    | cancelDelivered i a hma hpc hcan => exact absurd hnone hne
    | finallySet i a hma hpc => exact absurd hnone hne

/-- Witness for C1 at a concrete interleaving of the double-success race:
after attempt 0 claimed the slot in sWin, the slot still holds attempt 0
in the terminal state sLeak of a trace in which the connect call of
attempt 1 also succeeded. -/
theorem connect_tcp_winner_unique_witness : sLeak.stream = some 0 :=
  (connect_tcp_winner_unique sWin sLeak sLeak).1 trace_sWin_sLeak 0 rfl

/-- Counterexample to claim C2 as stated: in the single-candidate race
whose one connect call is refused, the exception raised to the caller is
the generic OSError of line 465 carrying the recorded error only as its
cause, not the recorded refused-connection error raised directly. -/
theorem connect_tcp_single_error_counterexample :
    Reachable scrRefused sRefusedEnd ∧
    finalOutcome sRefusedEnd =
      ConnectOutcome.raised ⟨allConnFailedErr, some (Cause.single refusedErr)⟩ ∧
    finalOutcome sRefusedEnd ≠ ConnectOutcome.raised ⟨refusedErr, none⟩ ∧
    allConnFailedErr ≠ refusedErr := by
  refine ⟨reach_sRefusedEnd, rfl, ?_, ?_⟩ <;> decide

/-- Claim C2 as amended: when no attempt won, the race raises the OSError
of line 465; its cause is the recorded error itself (no aggregate
wrapper) when exactly one error was recorded, and an aggregate group of
all recorded errors when two or more were. -/
theorem connect_tcp_error_aggregation (s : RaceState) (h : s.stream = none) :
    finalOutcome s = ConnectOutcome.raised ⟨allConnFailedErr, some (causeOf s.oserrors)⟩ ∧
    (∀ e, s.oserrors = [e] → causeOf s.oserrors = Cause.single e) ∧
    (2 ≤ s.oserrors.length → causeOf s.oserrors = Cause.group s.oserrors) := by
  refine ⟨?_, ?_, ?_⟩
  · simp [finalOutcome, h]
  · intro e he
    rw [he]
    rfl
  · intro hlen
    cases hos : s.oserrors with
    | nil => rfl
    | cons x xs =>
      cases xs with
      | nil => rw [hos] at hlen; simp at hlen
      | cons y ys => rfl

/-- Witness for the amended C2 at the concluded refused race: a single
recorded error is attached as itself, not wrapped in a group. -/
theorem connect_tcp_error_aggregation_witness :
    causeOf sRefusedEnd.oserrors = Cause.single refusedErr :=
  (connect_tcp_error_aggregation sRefusedEnd rfl).2.1 refusedErr rfl

/-- Counterexample to claim C3 as stated: connect_tcp spawns attempts in
the raw resolution order, which for the list IPv4 then IPv6 differs from
the family-sorted order the claim prescribes. -/
theorem connect_tcp_sort_counterexample :
    attemptOrder [⟨AddrFamily.inet, 4⟩, ⟨AddrFamily.inet6, 6⟩] =
      [⟨AddrFamily.inet, 4⟩, ⟨AddrFamily.inet6, 6⟩] ∧
    sortFamiliesSpec [⟨AddrFamily.inet, 4⟩, ⟨AddrFamily.inet6, 6⟩] =
      [⟨AddrFamily.inet6, 6⟩, ⟨AddrFamily.inet, 4⟩] ∧
    attemptOrder [⟨AddrFamily.inet, 4⟩, ⟨AddrFamily.inet6, 6⟩] ≠
      sortFamiliesSpec [⟨AddrFamily.inet, 4⟩, ⟨AddrFamily.inet6, 6⟩] := by
  refine ⟨rfl, by decide, by decide⟩

/-- Claim C3 as amended: connect_tcp performs no family sort; the list it
iterates is exactly the resolved list, and in every reachable state the
spawned attempts form a prefix of the candidate list in candidate order. -/
theorem connect_tcp_attempt_order (scr : List Script) (s : RaceState) (l : List AddrInfo)
    (h : Reachable scr s) :
    attemptOrder l = l ∧
    (∀ (i : Nat) (a : Attempt), s.attempts[i]? = some a →
      (a.pc ≠ APC.notSpawned ↔ i < s.spawned)) := by
  refine ⟨rfl, ?_⟩
  intro i a hma
  have h1 := (raceInv_reachable h).1 i a hma
  rw [ne_eq, h1, not_le]

/-- Witness for the amended C3 at the concluded refused race. -/
theorem connect_tcp_attempt_order_witness :
    attRefusedDone.pc ≠ APC.notSpawned ↔ 0 < sRefused.spawned :=
  (connect_tcp_attempt_order scrRefused sRefused [] reach_sRefused).2 0 attRefusedDone rfl

/-- Counterexample to claim C4 as stated: with an empty candidate list the
race does not produce a distinct NoCandidates condition; it raises the
same generic OSError of line 465, with an empty aggregate as its cause. -/
theorem connect_tcp_no_candidates_counterexample :
    finalOutcome (initState []) =
      ConnectOutcome.raised ⟨allConnFailedErr, some (Cause.group [])⟩ ∧
    finalOutcome (initState []) ≠ ConnectOutcome.noCandidates := by
  exact ⟨rfl, by decide⟩

/-- Claim C4 as amended: with an empty candidate list no attempt is ever
spawned (the initial state is the only reachable state), and the race
raises the generic OSError of line 465 whose cause is an empty aggregate
group. -/
theorem connect_tcp_empty_candidates (s : RaceState) (h : Reachable [] s) :
    s.spawned = 0 ∧ s = initState [] ∧
    finalOutcome s = ConnectOutcome.raised ⟨allConnFailedErr, some (Cause.group [])⟩ := by
  have he := reachable_nil_eq h
  subst he
  exact ⟨rfl, rfl, rfl⟩

/-- Witness for the amended C4 at the initial state of the empty race. -/
theorem connect_tcp_empty_candidates_witness :
    finalOutcome (initState []) =
      ConnectOutcome.raised ⟨allConnFailedErr, some (Cause.group [])⟩ :=
  (connect_tcp_empty_candidates (initState []) Relation.ReflTransGen.refl).2.2

/-- Claim C5: in every reachable state, every concluded attempt has set
its done event (failure paths included), so whenever the launcher is
waiting on an attempt that has concluded, the event branch of its wait is
enabled and it need not sit out the stagger delay; the default stagger
delay is 0.25 seconds. -/
theorem connect_tcp_stagger_done_events (scr : List Script) (s : RaceState) (a : Attempt)
    (h : Reachable scr s) :
    (∀ (i : Nat) (b : Attempt), s.attempts[i]? = some b →
      b.pc = APC.finished → b.eventSet = true) ∧
    (s.waiting = true → s.attempts[s.spawned - 1]? = some a → a.pc = APC.finished →
      Step s { s with waiting := false }) ∧
    happy_eyeballs_delay_default = 1 / 4 := by
  refine ⟨(raceInv_reachable h).2, ?_, by norm_num [happy_eyeballs_delay_default]⟩
  intro hw hma hpc
  exact Step.waitEvent s a hw hma ((raceInv_reachable h).2 _ a hma hpc)

/-- Witness for C5 at the refused race: with the single attempt concluded
(after a failure), the launcher can leave its wait through the event
branch. -/
theorem connect_tcp_stagger_done_events_witness :
    Step sRefused { sRefused with waiting := false } :=
  (connect_tcp_stagger_done_events scrRefused sRefused attRefusedDone
    reach_sRefused).2.1 rfl rfl rfl

/-- Claim C6 fails on the code: in the double-success interleaving where
the connect call of attempt 1 completes after attempt 0 already claimed
the winner slot, attempt 1 concludes with its socket still open, because
the success path of try_connect closes nothing when the slot is taken.
This terminal state is reachable, attempt 0 is the stored winner, and the
losing attempt 1 is finished with an open socket. -/
theorem connect_tcp_socket_leak :
    Reachable scrCC sLeak ∧ sLeak.stream = some 0 ∧
    sLeak.attempts[1]? =
      some ⟨Script.connectSucceeds, APC.finished, true, SockState.sockOpen⟩ :=
  ⟨reach_sLeak, rfl, rfl⟩

theorem runSetup_failed_mem {l : List (SetupStep × Bool)} {fails : SetupStep → Bool}
    {st : SetupStep} {c : Bool} (h : runSetup l fails = SetupResult.failed st c) :
    (st, c) ∈ l := by
  induction l with
  | nil => simp [runSetup] at h
  | cons p rest ih =>
    obtain ⟨pst, pgrd⟩ := p
    cases hf : fails pst with
    | true =>
      simp [runSetup, hf] at h
      obtain ⟨rfl, rfl⟩ := h
      exact List.mem_cons_self _ _
    | false =>
      simp only [runSetup, hf, Bool.false_eq_true, if_false] at h
      exact List.mem_cons_of_mem _ (ih h)

/-- Counterexample to claim C7 as stated: in create_tcp_server an
exceptional exit from the TCP_NODELAY option call (part of option setup,
but placed before the try block at source line 512) propagates without
the raw socket being closed. -/
theorem create_tcp_server_leak_counterexample :
    runSetup (create_tcp_server_steps true) failNodelay =
      SetupResult.failed SetupStep.optNodelay false ∧
    SetupResult.failed SetupStep.optNodelay false ≠
      SetupResult.failed SetupStep.optNodelay true := by
  exact ⟨rfl, by decide⟩

/-- Claim C7 as amended: each of connect_unix, create_tcp_server and
create_udp_socket closes its raw socket exactly on the exceptional exits
from the steps inside its try block (for connect_unix the backend connect
call; for create_tcp_server the reuse-address option, bind, listen and
the backend listener call; for create_udp_socket bind, connect and the
backend call), while an exceptional exit from the setup steps placed
before the try block (setblocking, TCP_NODELAY, IPV6_V6ONLY) leaves the
socket open. -/
theorem socket_setup_guarded_cleanup (fails : SetupStep → Bool)
    (isV6 doBind doConnect : Bool) (st : SetupStep) (c : Bool) :
    (runSetup connect_unix_steps fails = SetupResult.failed st c →
      (c = true ↔ st = SetupStep.backendCall)) ∧
    (runSetup (create_tcp_server_steps isV6) fails = SetupResult.failed st c →
      (c = true ↔ st = SetupStep.optReuse ∨ st = SetupStep.sockBind ∨
        st = SetupStep.sockListen ∨ st = SetupStep.backendCall)) ∧
    (runSetup (create_udp_socket_steps doBind doConnect) fails = SetupResult.failed st c →
      (c = true ↔ st = SetupStep.sockBind ∨ st = SetupStep.sockConnect ∨
        st = SetupStep.backendCall)) := by
  refine ⟨?_, ?_, ?_⟩
  · intro h
    have hm := runSetup_failed_mem h
    simp [connect_unix_steps] at hm
    rcases hm with ⟨rfl, rfl⟩ | ⟨rfl, rfl⟩ <;> simp
  · intro h
    have hm := runSetup_failed_mem h
    cases isV6 with
    | false =>
      simp [create_tcp_server_steps] at hm
      rcases hm with ⟨rfl, rfl⟩ | ⟨rfl, rfl⟩ | ⟨rfl, rfl⟩ | ⟨rfl, rfl⟩ | ⟨rfl, rfl⟩ |
        ⟨rfl, rfl⟩ <;> simp
    | true =>
      simp [create_tcp_server_steps] at hm
      rcases hm with ⟨rfl, rfl⟩ | ⟨rfl, rfl⟩ | ⟨rfl, rfl⟩ | ⟨rfl, rfl⟩ | ⟨rfl, rfl⟩ |
        ⟨rfl, rfl⟩ | ⟨rfl, rfl⟩ <;> simp
  · intro h
    have hm := runSetup_failed_mem h
    cases doBind with
    | false =>
      cases doConnect with
      | false =>
        simp [create_udp_socket_steps] at hm
        rcases hm with ⟨rfl, rfl⟩ | ⟨rfl, rfl⟩ <;> simp
      | true =>
        simp [create_udp_socket_steps] at hm
        rcases hm with ⟨rfl, rfl⟩ | ⟨rfl, rfl⟩ | ⟨rfl, rfl⟩ <;> simp
    | true =>
      cases doConnect with
      | false =>
        simp [create_udp_socket_steps] at hm
        rcases hm with ⟨rfl, rfl⟩ | ⟨rfl, rfl⟩ | ⟨rfl, rfl⟩ <;> simp
      | true =>
        simp [create_udp_socket_steps] at hm
        rcases hm with ⟨rfl, rfl⟩ | ⟨rfl, rfl⟩ | ⟨rfl, rfl⟩ | ⟨rfl, rfl⟩ <;> simp

/-- Witness for the amended C7: a failure at the reuse-address option of
create_tcp_server happens inside the try block, with the socket closed. -/
theorem socket_setup_guarded_cleanup_witness :
    true = true ↔ SetupStep.optReuse = SetupStep.optReuse ∨
      SetupStep.optReuse = SetupStep.sockBind ∨
      SetupStep.optReuse = SetupStep.sockListen ∨
      SetupStep.optReuse = SetupStep.backendCall :=
  (socket_setup_guarded_cleanup failReuse true true true SetupStep.optReuse true).2.1 rfl

/-- Claim C8: run raises RuntimeError when sniffio reports an event loop
already running in the calling thread (with a result independent of the
backend run outcome, which is therefore never consulted), raises
LookupError when the backend module does not import, otherwise passes the
backend run outcome through, and the sniffio context variable is restored
to its prior value on every exit path. -/
theorem run_backend_dispatch {E A : Type} (importable : String → Bool)
    (cvar : Option String) (backend name : String) (br : Except E A) :
    Anyio.run (some name) importable cvar backend br =
      (RunOutcome.runtimeError name, cvar) ∧
    (importable backend = false →
      Anyio.run none importable cvar backend br = (RunOutcome.lookupError backend, cvar)) ∧
    (importable backend = true →
      (Anyio.run none importable cvar backend br).1 = RunOutcome.backendResult br) ∧
    (∀ sniffed : Option String,
      (Anyio.run sniffed importable cvar backend br).2 = cvar) := by
  refine ⟨rfl, ?_, ?_, ?_⟩
  · intro hb
    simp [Anyio.run, hb]
  · intro hb
    simp [Anyio.run, hb]
  · intro sniffed
    cases sniffed with
    | some n => rfl
    | none =>
      by_cases hb : importable backend = true
      · cases cvar <;> simp [Anyio.run, hb]
      · simp [Anyio.run, hb]

/-- Witness for C8 with an importable backend and no loop running. -/
theorem run_backend_dispatch_witness :
    (@Anyio.run Unit Nat none (fun _ => true) none "asyncio" (Except.ok 3)).1 =
      RunOutcome.backendResult (Except.ok 3) :=
  (@run_backend_dispatch Unit Nat (fun _ => true) none "asyncio" "trio" (Except.ok 3)).2.2.1 rfl

/-- Claim C9: with delay None, fail_after and move_on_after return a plain
cancel scope carrying only the given shield flag: it has no deadline, so
the guarded block is never deadline-cancelled, and it never raises
TimeoutError. -/
theorem fail_after_none_plain_scope (sh : Bool) :
    fail_after none sh = TimeoutCM.plainScope sh ∧
    move_on_after none sh = TimeoutCM.plainScope sh ∧
    deadlineOf (fail_after none sh) = none ∧
    deadlineOf (move_on_after none sh) = none ∧
    shieldOf (fail_after none sh) = sh ∧
    shieldOf (move_on_after none sh) = sh ∧
    raisesTimeout (fail_after none sh) = false ∧
    raisesTimeout (move_on_after none sh) = false :=
  ⟨rfl, rfl, rfl, rfl, rfl, rfl, rfl, rfl⟩

/-- Claim C10: run_process kills the subprocess exactly when an exception
escapes the streaming and wait block, re-raising that exception; after a
clean wait it raises CalledProcessError exactly when check is set and the
return code is nonzero, and otherwise returns a CompletedProcess carrying
the command, the return code and the drained stream contents. -/
theorem run_process_kill_and_check {E : Type} (cmd : String) (check : Bool) (e : E)
    (rc : Int) (outS errS : Option String) :
    run_process cmd check (some e) rc outS errS = (RunProcessResult.escaped e, true) ∧
    (run_process cmd check (none : Option E) rc outS errS).2 = false ∧
    ((run_process cmd check (none : Option E) rc outS errS).1 =
      RunProcessResult.calledProcessError rc cmd outS errS ↔ check = true ∧ rc ≠ 0) ∧
    ((run_process cmd check (none : Option E) rc outS errS).1 =
      RunProcessResult.completed ⟨cmd, rc, outS, errS⟩ ↔ ¬(check = true ∧ rc ≠ 0)) := by
  refine ⟨rfl, ?_, ?_, ?_⟩ <;>
    by_cases h : check = true ∧ rc ≠ 0 <;> simp [run_process, h]

end Anyio
